import Mathlib

/-!
Verification of the Electron-RPC-Pilot window-session registry and RPC
dispatcher against its specification.

The repository ships the dashboard frontend (`src/index.tsx`) and the API
documentation (`src/Docs.md`); the controller process (Registry, Dispatcher,
Request Logger, RenderSurface adapter) is described by the specification but
its implementation file is not in the repository snapshot.  Definitions below
therefore come in two groups:

* client-side functions (`getRpcUrl`, `rpc`, `handleNavigate`) are shallow
  embeddings of the TypeScript in `src/index.tsx`;
* controller-side structures are modelled from the spec, each marked
  `Modelled from the spec:` in its doc comment.
-/

namespace ElectronRpcPilot

/-- JSON-serializable values carried in RPC results. -/
inductive Value where
  | null : Value
  | bool : Bool → Value
  | num : Int → Value
  | str : String → Value
deriving DecidableEq, Repr

/-- The RPC response envelope of `src/index.tsx` (interface `RpcResponse`):
`{ok: boolean, result?: T, error?: string}`.  Optional JSON fields are
`Option`s. -/
structure RpcResponse where
  ok : Bool
  result : Option Value
  error : Option String
deriving DecidableEq, Repr

/-- JS string truthiness of `data.error || 'Unknown RPC error'` in
`src/index.tsx` line 35: an absent field and the empty string are both
falsy, so both select the fallback message. -/
def errorMessage : Option String → String
  | none => "Unknown RPC error"
  | some s => if s = "" then "Unknown RPC error" else s

/-- The bundled rpc client function (`src/index.tsx` lines 27-41), applied to
the parsed response body: `if (!data.ok) throw new Error(data.error ||
'Unknown RPC error'); return data.result as T;`.  A thrown `Error` is the
`Except.error` branch carrying the message; the catch block only logs and
re-throws, so it does not change the outcome. -/
def rpc (data : RpcResponse) : Except String (Option Value) :=
  if data.ok then Except.ok data.result
  else Except.error (errorMessage data.error)

/-- Modelled from the spec: the Dispatcher error surface (§4.2): "it catches
and wraps into `{ok: false, error: <message>}`; success wraps into
`{ok: true, result: <value>}`".  The delegate outcome is an `Except` with the
failure message. -/
def wrapOutcome : Except String Value → RpcResponse
  | Except.ok v => ⟨true, some v, none⟩
  | Except.error e => ⟨false, none, some e⟩

/-- Function `getRpcUrl` from `src/index.tsx` lines 5-17.  `win` is `none` when
`typeof window === 'undefined'`, otherwise the page's query parameters as an
ordered key-value list (`URLSearchParams.has`/`get` = first binding).
`envRpcUrl` is `none` when `process`/`process.env`/`RPC_URL` is absent; the
source tests `process.env.RPC_URL` for truthiness, so an empty-string value
falls through to the default. -/
def getRpcUrl (win : Option (List (String × String))) (envRpcUrl : Option String) : String :=
  let fromQuery : Option (String × String) :=
    match win with
    | some search => search.find? (fun p => p.1 = "rpc")
    | none => none
  match fromQuery with
  | some p => p.2
  | none =>
    match envRpcUrl with
    | some s => if s = "" then "http://127.0.0.1:3456/rpc" else s
    | none => "http://127.0.0.1:3456/rpc"

/-- The state of the `WindowDetail` component that `handleNavigate` touches
(`src/index.tsx` lines 209-210): the displayed current URL and the URL typed
into the navigation box. -/
structure DetailState where
  currentUrl : String
  navUrl : String
deriving DecidableEq, Repr

/-- Function `handleNavigate` from `src/index.tsx` lines 231-235, applied to the
outcome of `await rpc('loadURL', ...)`: when the awaited call resolves,
`setCurrentUrl(navUrl)` runs; when it rejects, the async function aborts
before `setCurrentUrl`, leaving `currentUrl` unchanged. -/
def handleNavigate (s : DetailState) (loadResult : Except String (Option Value)) : DetailState :=
  match loadResult with
  | Except.ok _ => { s with currentUrl := s.navUrl }
  | Except.error _ => s

/-- Modelled from the spec: the error taxonomy of §7 (the controller source
is not in the repository snapshot). -/
inductive RpcError where
  | windowNotFound
  | navigationError
  | creationError
  | validationError
  | windowClosed
  | operationTimeout
deriving DecidableEq, Repr

/-- Modelled from the spec: a `WindowHandle` (§3) restricted to the fields the
registry invariants speak about — `id`, `accountIndex` and the current `url`.
The `renderSurfaceRef` and `requestLog` are treated separately. -/
structure WindowHandle where
  id : Nat
  accountIndex : Int
  url : String
deriving DecidableEq, Repr

/-- Modelled from the spec: the Window Registry state (§4.1) — the flat
id-indexed catalog of live windows plus the monotone id allocator.  The
grouped view is derived (`groupedView`), per invariant I1. -/
structure RegistryState where
  windows : List WindowHandle
  nextId : Nat
deriving DecidableEq, Repr

/-- The registry at process start, before the automatic initial window: no
windows, ids allocated from 1 (ids are positive). -/
def RegistryState.init : RegistryState := ⟨[], 1⟩

/-- Modelled from the spec: `get(id) -> handle | NotFound` (§4.1). -/
def RegistryState.find (s : RegistryState) (id : Nat) : Option WindowHandle :=
  s.windows.find? (fun h => h.id = id)

/-- Modelled from the spec: the derived grouped view behind `getWindows` /
`listGrouped` (§4.1): each live window contributes the slot keyed by its
current `(accountIndex, url)` holding its id. -/
def groupedView (s : RegistryState) : List ((Int × String) × Nat) :=
  s.windows.map (fun h => ((h.accountIndex, h.url), h.id))

/-- Modelled from the spec: `openWindow` / `Registry.create` (§4.1, §4.2):
allocates a fresh id (monotone counter), inserts the handle into the catalog,
returns the id; fails with `CreationError` when the engine cannot produce a
surface (`engineOk = false`), leaving the registry unchanged. -/
def openWindow (s : RegistryState) (acc : Int) (url : String) (engineOk : Bool) :
    Except RpcError Nat × RegistryState :=
  if engineOk then
    (Except.ok s.nextId, ⟨s.windows ++ [⟨s.nextId, acc, url⟩], s.nextId + 1⟩)
  else
    (Except.error RpcError.creationError, s)

/-- Modelled from the spec: `remove(id)` on close (§4.1): removes the handle
from both views (the grouped view being derived, removing from the catalog
removes it from both atomically); idempotent; never reuses the id. -/
def closeWindow (s : RegistryState) (id : Nat) : RegistryState :=
  ⟨s.windows.filter (fun h => h.id ≠ id), s.nextId⟩

/-- Modelled from the spec: `updateUrl(id, newUrl)` (§4.1): re-keys the
grouped-view entry for `id` by updating the handle's current url as one
logical operation. -/
def updateUrl (s : RegistryState) (id : Nat) (url : String) : RegistryState :=
  ⟨s.windows.map (fun h => if h.id = id then { h with url := url } else h), s.nextId⟩

/-- Modelled from the spec: the resolution rule (§4.2): "every method taking
`win_id` must resolve it against the Registry before delegating; an
unresolved id fails with `WindowNotFound` and the delegate is never invoked
(no partial side effects)".  `delegate` stands for an arbitrary
RenderSurface-backed method body. -/
def dispatchWin (s : RegistryState) (id : Nat)
    (delegate : WindowHandle → RegistryState → Except RpcError Value × RegistryState) :
    Except RpcError Value × RegistryState :=
  match s.find id with
  | none => (Except.error RpcError.windowNotFound, s)
  | some h => delegate h s

/-- Modelled from the spec: `loadURL` (§4.2): resolve `win_id`, then
`RenderSurface.navigate(url)`; on success `Registry.updateUrl`; a failed
navigation (`navOk = false`, engine error) surfaces `NavigationError` and
must not update the grouped-view key (I3). -/
def loadURL (s : RegistryState) (id : Nat) (url : String) (navOk : Bool) :
    Except RpcError Value × RegistryState :=
  dispatchWin s id (fun _ s =>
    if navOk then (Except.ok Value.null, updateUrl s id url)
    else (Except.error RpcError.navigationError, s))

/-- Registry-mutating RPC calls, for traces of C3: an `openWindow` (with the
engine succeeding or not), a close, and a navigation (succeeding or not). -/
inductive Event where
  | openW (acc : Int) (url : String) (engineOk : Bool)
  | closeW (id : Nat)
  | nav (id : Nat) (url : String) (navOk : Bool)
deriving DecidableEq, Repr

/-- State transition of one event. -/
def stepEvent (s : RegistryState) : Event → RegistryState
  | Event.openW acc url engineOk => (openWindow s acc url engineOk).2
  | Event.closeW id => closeWindow s id
  | Event.nav id url navOk => (loadURL s id url navOk).2

/-- Run a trace of events. -/
def runEvents (s : RegistryState) (es : List Event) : RegistryState :=
  es.foldl stepEvent s

/-- The window ids returned by the successful `openWindow` calls of a trace,
in call order. -/
def returnedIds (s : RegistryState) : List Event → List Nat
  | [] => []
  | e :: es =>
    match e with
    | Event.openW acc url engineOk =>
      match openWindow s acc url engineOk with
      | (Except.ok i, s2) => i :: returnedIds s2 es
      | (Except.error _, s2) => returnedIds s2 es
    | _ => returnedIds (stepEvent s e) es

/-- The `sameSite` values accepted by the cookie API (§6, `src/Docs.md`). -/
inductive SameSite where
  | no_restriction
  | lax
  | strict
deriving DecidableEq, Repr

/-- A cookie object as accepted by `importCookies` / produced by
`exportCookies` (§6, `src/Docs.md`): `name`, `value`, `domain`, `path`,
`secure`, `httpOnly`, `sameSite`; `domain` and `path` are optional fields. -/
structure Cookie where
  name : String
  value : String
  domain : Option String
  path : Option String
  secure : Bool
  httpOnly : Bool
  sameSite : SameSite
deriving DecidableEq, Repr

/-- Whether `pre` is a prefix of `s`, on the underlying character lists. -/
def strHasPrefix (pre s : String) : Bool :=
  pre.data.isPrefixOf s.data

/-- Modelled from the spec: per-entry prefix validation (§4.2, §6):
"`__Secure-`-prefixed names require `secure=true`; `__Host-`-prefixed names
additionally require `path=\x22/\x22` and no `domain` field". -/
def validCookie (c : Cookie) : Bool :=
  (!(strHasPrefix "__Secure-" c.name) || c.secure) &&
  (!(strHasPrefix "__Host-" c.name) ||
    (c.secure && c.path == some "/" && c.domain == none))

/-- Modelled from the spec: `importCookies` (§4.2, §7): validates every entry
before applying; rejects the whole batch on the first invalid entry with
`ValidationError`, applying zero cookies (all-or-nothing); when every entry is
valid, the whole batch is applied to the window's cookie jar. -/
def importCookies (jar : List Cookie) (batch : List Cookie) :
    Except RpcError Unit × List Cookie :=
  match batch.find? (fun c => !validCookie c) with
  | some _ => (Except.error RpcError.validationError, jar)
  | none => (Except.ok (), jar ++ batch)

/-- Modelled from the spec: `exportCookies` (§4.2) with an empty filter — a
snapshot of the window's cookie jar. -/
def exportCookies (jar : List Cookie) : List Cookie := jar

/-- A captured network request record (§3, `RequestRecord`): immutable once
recorded. -/
structure RequestRecord where
  method : String
  url : String
  headers : List (String × String)
  timestamp : Nat
deriving DecidableEq, Repr

/-- Modelled from the spec: the Request Logger append (§3, §4.4): the record
is appended at the end of the owning handle's log; past the fixed capacity
the oldest entries are evicted first (FIFO). -/
def appendBounded (cap : Nat) (log : List RequestRecord) (r : RequestRecord) :
    List RequestRecord :=
  let l := log ++ [r]
  if cap < l.length then l.drop (l.length - cap) else l

/-- Issue a batch of requests against one window's log, in order. -/
def logRequests (cap : Nat) (log : List RequestRecord) (rs : List RequestRecord) :
    List RequestRecord :=
  rs.foldl (appendBounded cap) log

/-- Modelled from the spec: `getRequests` with a `win_id` (§4.2): the
snapshot of that window's request log. -/
def getRequests (log : List RequestRecord) : List RequestRecord := log

/-- The window commands that can be in flight against the engine (§4.2). -/
inductive CmdKind where
  | loadUrlCmd
  | executeJsCmd
  | screenshotCmd
  | reloadCmd
  | setUserAgentCmd
  | cookieCmd
deriving DecidableEq, Repr

/-- A command in flight: its correlation id, target window and kind. -/
structure InFlight where
  cmdId : Nat
  winId : Nat
  kind : CmdKind
deriving DecidableEq, Repr

/-- How an in-flight command resolves. -/
inductive CmdOutcome where
  | ok : Value → CmdOutcome
  | err : RpcError → CmdOutcome
deriving DecidableEq, Repr

/-- In-flight commands and the outcomes already delivered to callers. -/
structure FlightState where
  inFlight : List InFlight
  resolved : List (Nat × CmdOutcome)
deriving DecidableEq, Repr

/-- Modelled from the spec: closing a window while commands for it are in
flight (§5): "Closing a window while a command for it is in flight must
cause that in-flight command to fail with `WindowClosed` rather than hang
indefinitely".  The close event resolves every in-flight command of the
closed window with `WindowClosed`; commands for other windows stay in
flight. -/
def closeResolve (s : FlightState) (w : Nat) : FlightState :=
  { inFlight := s.inFlight.filter (fun f => f.winId ≠ w),
    resolved := s.resolved ++
      (s.inFlight.filter (fun f => f.winId = w)).map
        (fun f => (f.cmdId, CmdOutcome.err RpcError.windowClosed)) }

/-- A command submitted to the per-window scheduler: correlation id and
target window. -/
structure Cmd where
  cid : Nat
  win : Nat
deriving DecidableEq, Repr

/-- Scheduler actions: a command starts executing against the engine, or
finishes. -/
inductive Action where
  | start (c : Cmd)
  | finish (c : Cmd)
deriving DecidableEq, Repr

/-- Scheduler state: commands not yet started, in arrival order, and
commands currently executing against the engine. -/
structure SchedState where
  pending : List Cmd
  running : List Cmd
deriving DecidableEq, Repr

/-- Modelled from the spec: the ordering guarantees of §5.  A command may
start only when it is the earliest arrival among pending commands for its
window and no command for that window is currently executing (same-window
serialization in arrival order); nothing constrains commands of different
windows against each other (no global lock).  An action violating the
guard is rejected (`none`). -/
def applyAction (s : SchedState) : Action → Option SchedState
  | Action.start c =>
    if (s.pending.filter (fun x => x.win == c.win)).head? = some c ∧
        s.running.all (fun x => x.win != c.win) then
      some { pending := s.pending.erase c, running := s.running ++ [c] }
    else none
  | Action.finish c =>
    if c ∈ s.running then
      some { pending := s.pending, running := s.running.erase c }
    else none

/-- Run a list of scheduler actions; `none` when some action violates the
scheduling guards. -/
def runSched (s : SchedState) : List Action → Option SchedState
  | [] => some s
  | a :: as =>
    match applyAction s a with
    | some s2 => runSched s2 as
    | none => none

/-- The commands started along a list of actions, in start order. -/
def startedCmds (as : List Action) : List Cmd :=
  as.filterMap (fun a =>
    match a with
    | Action.start c => some c
    | Action.finish _ => none)

/-- The subsequence of commands targeting window `w`. -/
def winSeq (w : Nat) (l : List Cmd) : List Cmd :=
  l.filter (fun c => c.win == w)

/-- C1 counterexample: the claim says the client throws an `Error` carrying
the envelope's error string whenever `ok` is false, with the fallback
message only "when the error field is absent".  On the envelope
`{ok: false, error: ""}` the error field is present, yet `data.error ||
'Unknown RPC error'` treats the empty string as falsy and the client throws
the fallback message, not the envelope's error string. -/
theorem rpc_error_falsy_counterexample :
    rpc ⟨false, none, some ""⟩ ≠ Except.error "" ∧
    rpc ⟨false, none, some ""⟩ = Except.error "Unknown RPC error" := by
  refine ⟨?_, rfl⟩
  intro h
  rw [show rpc ⟨false, none, some ""⟩ = Except.error "Unknown RPC error" from rfl] at h
  exact absurd (Except.error.inj h) (by decide)

/-- C1 (amended): every dispatched method's response is the envelope
`{ok, result?, error?}` — the Dispatcher wraps a delegate success as
`{ok: true, result: v}` and a caught delegate failure as
`{ok: false, error: msg}` — and the bundled rpc client returns the
envelope's `result` field exactly when `ok` is true and throws an `Error`
carrying the envelope's error string exactly when `ok` is false, with the
message `"Unknown RPC error"` when the error field is absent *or empty*. -/
theorem rpc_envelope_contract (v : Value) (e : String) (r : Option Value)
    (msg : Option String) :
    wrapOutcome (Except.ok v) = ⟨true, some v, none⟩ ∧
    wrapOutcome (Except.error e) = ⟨false, none, some e⟩ ∧
    rpc (wrapOutcome (Except.ok v)) = Except.ok (some v) ∧
    rpc (wrapOutcome (Except.error e)) =
      Except.error (if e = "" then "Unknown RPC error" else e) ∧
    rpc ⟨true, r, msg⟩ = Except.ok r ∧
    rpc ⟨false, r, msg⟩ =
      Except.error (match msg with
        | none => "Unknown RPC error"
        | some t => if t = "" then "Unknown RPC error" else t) := by
  refine ⟨rfl, rfl, rfl, ?_, rfl, ?_⟩
  · simp [rpc, wrapOutcome, errorMessage]
  · cases msg <;> simp [rpc, errorMessage]

/-- C9 counterexample: the claim says that (absent an `rpc` query parameter)
whenever `process.env.RPC_URL` is set, its value is returned.  With
`RPC_URL` set to the empty string the source's truthiness test
`process.env.RPC_URL` fails and the constant default is returned instead of
the set value. -/
theorem getRpcUrl_empty_env_counterexample :
    getRpcUrl (some []) (some "") ≠ "" ∧
    getRpcUrl (some []) (some "") = "http://127.0.0.1:3456/rpc" := by
  exact ⟨by decide, rfl⟩

/-- C9 (amended): `getRpcUrl` resolves the RPC endpoint with a fixed
three-step precedence: the value of the page's `rpc` query parameter when
present; otherwise `process.env.RPC_URL` when set *to a non-empty string*;
otherwise (unset or empty) the constant `"http://127.0.0.1:3456/rpc"`. -/
theorem getRpcUrl_precedence (search : List (String × String)) (env : Option String) :
    (∀ p, search.find? (fun q => q.1 = "rpc") = some p →
      getRpcUrl (some search) env = p.2) ∧
    (search.find? (fun q => q.1 = "rpc") = none →
      ((∀ s, env = some s → s ≠ "" → getRpcUrl (some search) env = s) ∧
       ((env = none ∨ env = some "") →
         getRpcUrl (some search) env = "http://127.0.0.1:3456/rpc"))) ∧
    (∀ s, env = some s → s ≠ "" → getRpcUrl none env = s) ∧
    ((env = none ∨ env = some "") →
      getRpcUrl none env = "http://127.0.0.1:3456/rpc") := by
  refine ⟨fun p hp => ?_, fun hn => ⟨fun s hs hne => ?_, fun hd => ?_⟩,
    fun s hs hne => ?_, fun hd => ?_⟩
  · simp [getRpcUrl, hp]
  · subst hs; simp [getRpcUrl, hn, hne]
  · rcases hd with h | h <;> subst h <;> simp [getRpcUrl, hn]
  · subst hs; simp [getRpcUrl, hne]
  · rcases hd with h | h <;> subst h <;> simp [getRpcUrl]

/-- Closed instance for `getRpcUrl_precedence`: a page URL carrying
`?rpc=X` overrides a non-empty environment value. -/
theorem getRpcUrl_precedence_witness :
    getRpcUrl (some [("rpc", "X")]) (some "Y") = "X" :=
  (getRpcUrl_precedence [("rpc", "X")] (some "Y")).1 ("rpc", "X") (by decide)

/-- C10: in the window detail view, `handleNavigate` updates the displayed
current URL to the requested navigation URL exactly when the `loadURL` rpc
call resolves successfully (envelope `ok = true`); when the rpc client
throws (envelope `ok = false`, or any thrown error), `currentUrl` is
unchanged. -/
theorem handleNavigate_updates_only_on_success (s : DetailState) (r : Option Value)
    (msg : Option String) :
    handleNavigate s (rpc ⟨true, r, msg⟩) = { s with currentUrl := s.navUrl } ∧
    handleNavigate s (rpc ⟨false, r, msg⟩) = s ∧
    (∀ e : String, handleNavigate s (Except.error e) = s) := by
  exact ⟨rfl, rfl, fun e => rfl⟩

/-- C5: every RPC method taking a `win_id` resolves the id against the
Registry before delegating: when the id is absent, the call fails with
`WindowNotFound`, the registry state is unchanged (no side effect), and the
outcome is the same for every delegate — the RenderSurface delegate is never
invoked. -/
theorem dispatchWin_unresolved_id (s : RegistryState) (id : Nat)
    (h : s.find id = none) :
    ∀ delegate, dispatchWin s id delegate = (Except.error RpcError.windowNotFound, s) := by
  intro delegate
  unfold dispatchWin
  rw [h]

/-- Closed instance for `dispatchWin_unresolved_id`: id 1 against the empty
registry, with a delegate that would succeed if it were ever invoked. -/
theorem dispatchWin_unresolved_id_witness :
    dispatchWin RegistryState.init 1 (fun _ t => (Except.ok Value.null, t)) =
      (Except.error RpcError.windowNotFound, RegistryState.init) :=
  dispatchWin_unresolved_id RegistryState.init 1 rfl _

/-- C4: `importCookies` is all-or-nothing: whenever some entry of the batch
violates the name-prefix rules (`validCookie` is false for it), the call
returns `ValidationError`, zero cookies are applied, and a subsequent
`exportCookies` shows the cookie jar unchanged. -/
theorem importCookies_all_or_nothing (jar batch : List Cookie) (c : Cookie)
    (hc : c ∈ batch) (hv : validCookie c = false) :
    (importCookies jar batch).1 = Except.error RpcError.validationError ∧
    exportCookies (importCookies jar batch).2 = exportCookies jar := by
  have hsome : (batch.find? (fun x => !validCookie x)).isSome := by
    rw [List.find?_isSome]
    exact ⟨c, hc, by simp [hv]⟩
  rcases Option.isSome_iff_exists.mp hsome with ⟨c', hc'⟩
  unfold importCookies
  rw [hc']
  exact ⟨rfl, rfl⟩

/-- An invalid `__Host-` cookie: `secure` and `path="/"` hold but a `domain`
is set, violating the `__Host-` prefix rule. -/
def badHostCookie : Cookie :=
  ⟨"__Host-session", "v", some "example.com", some "/", true, false, SameSite.lax⟩

/-- Closed instance for `importCookies_all_or_nothing`: a batch containing
one invalid `__Host-` entry (with a `domain` set) applies zero cookies. -/
theorem importCookies_all_or_nothing_witness :
    (importCookies [] [badHostCookie]).1 = Except.error RpcError.validationError ∧
    exportCookies (importCookies [] [badHostCookie]).2 = exportCookies [] :=
  importCookies_all_or_nothing [] [badHostCookie] badHostCookie (by decide) (by decide)

/-- C7: closing window `w` resolves every command in flight for `w` with a
`WindowClosed` failure (delivered to its caller's resolved outcomes, so the
command does not hang) and removes it from the in-flight set; this covers
every command kind, in particular an in-flight `screenshot`. -/
theorem close_resolves_in_flight (s : FlightState) (w : Nat) (f : InFlight)
    (hf : f ∈ s.inFlight) (hw : f.winId = w) :
    (f.cmdId, CmdOutcome.err RpcError.windowClosed) ∈ (closeResolve s w).resolved ∧
    f ∉ (closeResolve s w).inFlight := by
  constructor
  · refine List.mem_append.mpr (Or.inr ?_)
    exact List.mem_map_of_mem _ (List.mem_filter.mpr ⟨hf, by simp [hw]⟩)
  · intro hmem
    have := (List.mem_filter.mp hmem).2
    simp [hw] at this

/-- Closed instance for `close_resolves_in_flight`: an in-flight screenshot
for window 3 resolves with `WindowClosed` when window 3 is closed. -/
theorem close_resolves_in_flight_witness :
    ((7 : Nat), CmdOutcome.err RpcError.windowClosed) ∈
      (closeResolve ⟨[⟨7, 3, CmdKind.screenshotCmd⟩], []⟩ 3).resolved ∧
    (⟨7, 3, CmdKind.screenshotCmd⟩ : InFlight) ∉
      (closeResolve ⟨[⟨7, 3, CmdKind.screenshotCmd⟩], []⟩ 3).inFlight :=
  close_resolves_in_flight ⟨[⟨7, 3, CmdKind.screenshotCmd⟩], []⟩ 3
    ⟨7, 3, CmdKind.screenshotCmd⟩ (by decide) rfl

theorem returnedIds_nil (s : RegistryState) : returnedIds s [] = [] := rfl

theorem returnedIds_openW_true (s : RegistryState) (acc : Int) (url : String)
    (es : List Event) :
    returnedIds s (Event.openW acc url true :: es) =
      s.nextId :: returnedIds ⟨s.windows ++ [⟨s.nextId, acc, url⟩], s.nextId + 1⟩ es := rfl

theorem returnedIds_openW_false (s : RegistryState) (acc : Int) (url : String)
    (es : List Event) :
    returnedIds s (Event.openW acc url false :: es) = returnedIds s es := rfl

theorem returnedIds_closeW (s : RegistryState) (id : Nat) (es : List Event) :
    returnedIds s (Event.closeW id :: es) = returnedIds (closeWindow s id) es := rfl

theorem returnedIds_nav (s : RegistryState) (id : Nat) (url : String) (navOk : Bool)
    (es : List Event) :
    returnedIds s (Event.nav id url navOk :: es) =
      returnedIds (loadURL s id url navOk).2 es := rfl

/-- No event decreases the id allocator. -/
theorem nextId_le_stepEvent (s : RegistryState) (e : Event) :
    s.nextId ≤ (stepEvent s e).nextId := by
  cases e with
  | openW acc url engineOk =>
    cases engineOk <;> simp [stepEvent, openWindow]
  | closeW id => exact le_refl _
  | nav id url navOk =>
    simp only [stepEvent, loadURL, dispatchWin]
    rcases h : s.find id with _ | w
    · exact le_refl _
    · cases navOk <;> simp [updateUrl]

/-- Every id returned along a trace is at least the allocator's value at the
start of the trace. -/
theorem returnedIds_lower (es : List Event) :
    ∀ s : RegistryState, ∀ i ∈ returnedIds s es, s.nextId ≤ i := by
  induction es with
  | nil => intro s i h; rw [returnedIds_nil] at h; cases h
  | cons e es ih =>
    intro s i h
    cases e with
    | openW acc url engineOk =>
      cases engineOk with
      | false => rw [returnedIds_openW_false] at h; exact ih s i h
      | true =>
        rw [returnedIds_openW_true] at h
        rcases List.mem_cons.mp h with h1 | h2
        · exact le_of_eq h1.symm
        · have h3 : s.nextId + 1 ≤ i := ih _ i h2
          omega
    | closeW id =>
      rw [returnedIds_closeW] at h
      exact ih (closeWindow s id) i h
    | nav id url navOk =>
      rw [returnedIds_nav] at h
      have h2 : s.nextId ≤ (loadURL s id url navOk).2.nextId :=
        nextId_le_stepEvent s (Event.nav id url navOk)
      exact le_trans h2 (ih _ i h)

/-- Along any trace, the returned ids are pairwise strictly increasing. -/
theorem returnedIds_pairwise (es : List Event) :
    ∀ s : RegistryState, (returnedIds s es).Pairwise (· < ·) := by
  induction es with
  | nil => intro s; rw [returnedIds_nil]; exact List.Pairwise.nil
  | cons e es ih =>
    intro s
    cases e with
    | openW acc url engineOk =>
      cases engineOk with
      | false => rw [returnedIds_openW_false]; exact ih s
      | true =>
        rw [returnedIds_openW_true]
        refine List.Pairwise.cons (fun i hi => ?_) (ih _)
        have h3 : s.nextId + 1 ≤ i := returnedIds_lower es _ i hi
        omega
    | closeW id => rw [returnedIds_closeW]; exact ih _
    | nav id url navOk => rw [returnedIds_nav]; exact ih _

/-- C3: over every sequence of `openWindow` calls, possibly interleaved with
closes (and navigations), the returned window ids are strictly increasing
positive integers — assigned monotonically at creation and never repeated
while the process lives. -/
theorem openWindow_ids_strictly_increasing (es : List Event) :
    (returnedIds RegistryState.init es).Pairwise (· < ·) ∧
    ∀ i ∈ returnedIds RegistryState.init es, 0 < i := by
  refine ⟨returnedIds_pairwise es RegistryState.init, fun i hi => ?_⟩
  exact returnedIds_lower es RegistryState.init i hi

/-- A trace opening a window, closing it, and opening another. -/
def demoTrace : List Event :=
  [Event.openW 0 "https://a" true, Event.closeW 1, Event.openW 0 "https://b" true]

/-- Closed instance for `openWindow_ids_strictly_increasing`: the id 2
returned after an intervening close is positive (and `demoTrace` returns the
strictly increasing ids 1, 2). -/
theorem openWindow_ids_strictly_increasing_witness :
    2 ∈ returnedIds RegistryState.init demoTrace ∧ 0 < 2 :=
  ⟨by decide, (openWindow_ids_strictly_increasing demoTrace).2 2 (by decide)⟩

theorem suffix_append_right {α : Type} {a b : List α} (h : a <:+ b) (c : List α) :
    a ++ c <:+ b ++ c := by
  rcases h with ⟨t, rfl⟩
  exact ⟨t, (List.append_assoc t a c).symm⟩

/-- One bounded append keeps a suffix of the appended log. -/
theorem appendBounded_suffix (cap : Nat) (log : List RequestRecord) (r : RequestRecord) :
    appendBounded cap log r <:+ log ++ [r] := by
  simp only [appendBounded]
  split
  · exact List.drop_suffix _ _
  · exact List.suffix_refl _

/-- The log after a batch of requests is a suffix of all records ever
appended, in order — records are never modified, only evicted from the
front. -/
theorem logRequests_suffix (cap : Nat) (rs : List RequestRecord) :
    ∀ log, logRequests cap log rs <:+ log ++ rs := by
  induction rs with
  | nil => intro log; simp [logRequests]
  | cons r rs ih =>
    intro log
    have e : logRequests cap log (r :: rs) =
        logRequests cap (appendBounded cap log r) rs := rfl
    rw [e]
    refine List.IsSuffix.trans (ih _) ?_
    have h2 := suffix_append_right (appendBounded_suffix cap log r) rs
    rw [List.append_assoc] at h2
    simpa using h2

theorem appendBounded_length (cap : Nat) (log : List RequestRecord) (r : RequestRecord) :
    (appendBounded cap log r).length = min cap (log.length + 1) := by
  simp only [appendBounded]
  split <;> rename_i h <;> simp [List.length_append] at h ⊢ <;> omega

/-- Length of the log after a batch: the capacity caps the record count. -/
theorem logRequests_length (cap : Nat) (rs : List RequestRecord) :
    ∀ log : List RequestRecord, log.length ≤ cap →
      (logRequests cap log rs).length = min cap (log.length + rs.length) := by
  induction rs with
  | nil => intro log h; simp [logRequests]; omega
  | cons r rs ih =>
    intro log h
    have e : logRequests cap log (r :: rs) =
        logRequests cap (appendBounded cap log r) rs := rfl
    have h1 := appendBounded_length cap log r
    have h2 : (appendBounded cap log r).length ≤ cap := by omega
    rw [e, ih _ h2, h1, List.length_cons]
    omega

theorem eq_drop_of_suffix {α : Type} {l s : List α} (h : s <:+ l) :
    s = l.drop (l.length - s.length) := by
  rcases h with ⟨t, rfl⟩
  rw [List.length_append]
  have e : t.length + s.length - s.length = t.length := by omega
  rw [e, List.drop_left]

/-- C6: each window's request log is FIFO-bounded: issuing capacity+1
requests against one window (from an empty log), `getRequests` returns
exactly the most recent `capacity` records in order — the batch with its
oldest record evicted — and the retained records are the appended records
themselves, unmodified. -/
theorem requestLog_fifo_bounded (cap : Nat) (rs : List RequestRecord)
    (hlen : rs.length = cap + 1) :
    getRequests (logRequests cap [] rs) = rs.drop 1 := by
  have hs : logRequests cap [] rs <:+ rs := by
    have := logRequests_suffix cap rs []
    rwa [List.nil_append] at this
  have hl : (logRequests cap [] rs).length = min cap (List.length ([] : List RequestRecord) + rs.length) :=
    logRequests_length cap rs [] (by simp)
  have e := eq_drop_of_suffix hs
  rw [getRequests, e, hl]
  congr 1
  simp only [List.length_nil, Nat.zero_add, hlen]
  omega

/-- A demo request record. -/
def demoRec (n : Nat) : RequestRecord :=
  ⟨"GET", "https://example.com", [("accept", "text/html")], n⟩

/-- Closed instance for `requestLog_fifo_bounded`: capacity 2, three
requests — the first is evicted, the last two are retained in order. -/
theorem requestLog_fifo_bounded_witness :
    ([demoRec 1, demoRec 2, demoRec 3] : List RequestRecord).length = 2 + 1 ∧
    getRequests (logRequests 2 [] [demoRec 1, demoRec 2, demoRec 3]) =
      [demoRec 1, demoRec 2, demoRec 3].drop 1 :=
  ⟨rfl, requestLog_fifo_bounded 2 [demoRec 1, demoRec 2, demoRec 3] rfl⟩

/-- A member of the catalog is resolvable. -/
theorem find_of_mem (s : RegistryState) (h : WindowHandle) (hmem : h ∈ s.windows) :
    ∃ w, s.find h.id = some w := by
  have hsome : (s.windows.find? (fun x => x.id = h.id)).isSome := by
    rw [List.find?_isSome]
    exact ⟨h, hmem, by simp⟩
  exact Option.isSome_iff_exists.mp hsome

/-- C2: for every live window the `getWindows` grouped view contains exactly
one entry, keyed by the window's current `(accountIndex, url)`; a successful
`loadURL` removes the old url-key and adds the new one with the same id,
leaving the grouped-view entry count unchanged; a failed navigation returns
`NavigationError` with the registry (hence the grouped-view key) unchanged.
The hypotheses state registry invariants I1/I2: ids are unique and distinct
live windows occupy distinct `(accountIndex, url)` slots. -/
theorem groupedView_one_entry_per_window (s : RegistryState) (h : WindowHandle)
    (newUrl : String)
    (hmem : h ∈ s.windows)
    (hnodup : (s.windows.map (fun w => w.id)).Nodup)
    (hnew : newUrl ≠ h.url)
    (hkey : ∀ w ∈ s.windows, w.id ≠ h.id →
      (w.accountIndex, w.url) ≠ (h.accountIndex, h.url)) :
    ((h.accountIndex, h.url), h.id) ∈ groupedView s ∧
    (groupedView s).countP (fun e => e.2 == h.id) = 1 ∧
    (loadURL s h.id newUrl true).1 = Except.ok Value.null ∧
    (groupedView (loadURL s h.id newUrl true).2).length = (groupedView s).length ∧
    ((h.accountIndex, newUrl), h.id) ∈ groupedView (loadURL s h.id newUrl true).2 ∧
    (∀ e ∈ groupedView (loadURL s h.id newUrl true).2, e.1 ≠ (h.accountIndex, h.url)) ∧
    loadURL s h.id newUrl false = (Except.error RpcError.navigationError, s) := by
  obtain ⟨w0, hfind⟩ := find_of_mem s h hmem
  have e2 : (loadURL s h.id newUrl true).2 = updateUrl s h.id newUrl := by
    simp [loadURL, dispatchWin, hfind]
  refine ⟨?_, ?_, ?_, ?_, ?_, ?_, ?_⟩
  · exact List.mem_map_of_mem _ hmem
  · calc (groupedView s).countP (fun e => e.2 == h.id)
        = s.windows.countP (fun w => w.id == h.id) := List.countP_map _ _ _
      _ = (s.windows.map (fun w => w.id)).countP (fun x => x == h.id) :=
          (List.countP_map (fun x => x == h.id) (fun w : WindowHandle => w.id) s.windows).symm
      _ = (s.windows.map (fun w => w.id)).count h.id := (List.count_eq_countP _ _).symm
      _ = 1 := List.count_eq_one_of_mem hnodup (List.mem_map_of_mem _ hmem)
  · simp [loadURL, dispatchWin, hfind]
  · rw [e2]
    simp [groupedView, updateUrl]
  · rw [e2]
    have hmm := List.mem_map_of_mem (fun w => ((w.accountIndex, w.url), w.id))
      (List.mem_map_of_mem (fun w => if w.id = h.id then { w with url := newUrl } else w) hmem)
    simpa [groupedView, updateUrl] using hmm
  · intro e he
    rw [e2] at he
    simp only [groupedView, updateUrl, List.map_map, List.mem_map, Function.comp] at he
    obtain ⟨w, hw, rfl⟩ := he
    by_cases hid : w.id = h.id
    · have hwh : w = h := List.inj_on_of_nodup_map hnodup hw hmem hid
      subst hwh
      simp only [if_pos hid]
      intro hcontr
      exact hnew (congrArg Prod.snd hcontr)
    · simp only [if_neg hid]
      exact hkey w hw hid
  · simp [loadURL, dispatchWin, hfind]

/-- A registry with two live windows of distinct accounts sharing a url. -/
def demoReg : RegistryState :=
  ⟨[⟨1, 0, "https://a"⟩, ⟨2, 1, "https://a"⟩], 3⟩

/-- Closed instance for `groupedView_one_entry_per_window`: after navigating
window 1 of `demoReg` to a new url, the grouped view holds the new url-key
with the same id. -/
theorem groupedView_one_entry_per_window_witness :
    (((0 : Int), "https://b"), 1) ∈ groupedView (loadURL demoReg 1 "https://b" true).2 :=
  (groupedView_one_entry_per_window demoReg ⟨1, 0, "https://a"⟩ "https://b"
    (by decide) (by decide) (by decide) (by decide)).2.2.2.2.1

theorem filter_erase_of_not {p : Cmd → Bool} {c : Cmd} (hp : p c = false) :
    ∀ l : List Cmd, (l.erase c).filter p = l.filter p := by
  intro l
  induction l with
  | nil => rfl
  | cons x xs ih =>
    rw [List.erase_cons]
    by_cases hx : x = c
    · subst hx
      simp only [beq_self_eq_true, if_pos]
      rw [List.filter_cons, hp]
      simp
    · have hb : (x == c) = false := beq_eq_false_iff_ne.mpr hx
      rw [hb]
      simp only [Bool.false_eq_true, if_false, List.filter_cons]
      cases hpx : p x <;> simp [ih]

theorem head_mem_filter {p : Cmd → Bool} {c : Cmd} {l : List Cmd}
    (h : (l.filter p).head? = some c) : p c = true := by
  have hmem : c ∈ l.filter p := List.mem_of_mem_head? h
  exact (List.mem_filter.mp hmem).2

theorem filter_erase_head {p : Cmd → Bool} {c : Cmd} :
    ∀ l : List Cmd, (l.filter p).head? = some c →
      (l.erase c).filter p = (l.filter p).tail := by
  intro l
  induction l with
  | nil => intro h; cases h
  | cons x xs ih =>
    intro h
    by_cases hpx : p x = true
    · rw [List.filter_cons, hpx] at h ⊢
      simp only [if_pos] at h ⊢
      have hxc : x = c := by
        have := List.head?_cons (a := x) (l := xs.filter p) ▸ h
        exact Option.some.inj this
      subst hxc
      rw [List.erase_cons_head]
      simp
    · have hpx2 : p x = false := Bool.eq_false_iff.mpr hpx
      rw [List.filter_cons, hpx2] at h ⊢
      simp only [Bool.false_eq_true, if_false] at h ⊢
      have hpc : p c = true := head_mem_filter h
      have hxc : (x == c) = false := by
        refine beq_eq_false_iff_ne.mpr ?_
        intro hcontr
        rw [hcontr] at hpx2
        rw [hpc] at hpx2
        cases hpx2
      rw [List.erase_cons, hxc]
      simp only [Bool.false_eq_true, if_false, List.filter_cons, hpx2]
      exact ih h

/-- At most one command per window is executing against the engine. -/
def oneRunPerWin (s : SchedState) : Prop :=
  ∀ w, (s.running.filter (fun x => x.win == w)).length ≤ 1

theorem applyAction_oneRun {s s2 : SchedState} {a : Action}
    (h : applyAction s a = some s2) (inv : oneRunPerWin s) : oneRunPerWin s2 := by
  cases a with
  | start c =>
    simp only [applyAction] at h
    split at h
    · rename_i hguard
      obtain ⟨hhead, hall⟩ := hguard
      have hs2 : s2 = ⟨s.pending.erase c, s.running ++ [c]⟩ := (Option.some.inj h).symm
      subst hs2
      intro w
      simp only [List.filter_append]
      by_cases hw : c.win = w
      · have hnil : s.running.filter (fun x => x.win == w) = [] := by
          rw [List.filter_eq_nil_iff]
          intro x hx
          have := List.all_eq_true.mp hall x hx
          subst hw
          simpa using this
        rw [hnil]
        simp [hw]
      · have hb : (c.win == w) = false := beq_eq_false_iff_ne.mpr hw
        simp only [List.filter_cons, hb, Bool.false_eq_true, if_false, List.filter_nil,
          List.append_nil]
        exact inv w
    · cases h
  | finish c =>
    simp only [applyAction] at h
    split at h
    · have hs2 : s2 = ⟨s.pending, s.running.erase c⟩ := (Option.some.inj h).symm
      subst hs2
      intro w
      refine le_trans (List.Sublist.length_le ?_) (inv w)
      exact List.Sublist.filter _ (List.erase_sublist c s.running)
    · cases h

theorem runSched_oneRun (as : List Action) :
    ∀ s s2 : SchedState, runSched s as = some s2 → oneRunPerWin s → oneRunPerWin s2 := by
  induction as with
  | nil =>
    intro s s2 h inv
    have : s = s2 := Option.some.inj h
    exact this ▸ inv
  | cons a as ih =>
    intro s s2 h inv
    simp only [runSched] at h
    cases ha : applyAction s a with
    | none => rw [ha] at h; cases h
    | some s1 =>
      rw [ha] at h
      exact ih s1 s2 h (applyAction_oneRun ha inv)

theorem eq_cons_head_tail {l : List Cmd} {c : Cmd} (h : l.head? = some c) :
    l = c :: l.tail := by
  cases l with
  | nil => cases h
  | cons x xs =>
    have : x = c := Option.some.inj h
    rw [this]
    rfl

/-- Along any valid schedule, the commands of window `w` not yet started
are exactly the arrival-order remainder after the started ones. -/
theorem runSched_winSeq (as : List Action) :
    ∀ s s2 : SchedState, runSched s as = some s2 →
      ∀ w, winSeq w s.pending = winSeq w (startedCmds as) ++ winSeq w s2.pending := by
  induction as with
  | nil =>
    intro s s2 h w
    have hs : s = s2 := Option.some.inj h
    subst hs
    rfl
  | cons a as ih =>
    intro s s2 h w
    simp only [runSched] at h
    cases ha : applyAction s a with
    | none => rw [ha] at h; cases h
    | some s1 =>
      rw [ha] at h
      have ihw := ih s1 s2 h w
      cases a with
      | start c =>
        simp only [applyAction] at ha
        split at ha
        · rename_i hguard
          obtain ⟨hhead, _⟩ := hguard
          have hs1 : s1 = ⟨s.pending.erase c, s.running ++ [c]⟩ := (Option.some.inj ha).symm
          have hstart : startedCmds (Action.start c :: as) = c :: startedCmds as := rfl
          rw [hstart]
          by_cases hw : c.win = w
          · subst hw
            have e1 : winSeq c.win (s.pending.erase c) = (winSeq c.win s.pending).tail :=
              filter_erase_head s.pending hhead
            have e2 : winSeq c.win s.pending = c :: (winSeq c.win s.pending).tail :=
              eq_cons_head_tail hhead
            rw [hs1] at ihw
            have e3 : winSeq c.win (c :: startedCmds as) = c :: winSeq c.win (startedCmds as) := by
              simp [winSeq, List.filter_cons]
            rw [e3, e2]
            simp only [List.cons_append]
            rw [← e1]
            exact congrArg (c :: ·) ihw
          · have hb : (c.win == w) = false := beq_eq_false_iff_ne.mpr hw
            have e1 : winSeq w (s.pending.erase c) = winSeq w s.pending :=
              filter_erase_of_not hb s.pending
            rw [hs1] at ihw
            have e3 : winSeq w (c :: startedCmds as) = winSeq w (startedCmds as) := by
              simp [winSeq, List.filter_cons, hb]
            rw [e3, ← e1]
            exact ihw
        · cases ha
      | finish c =>
        simp only [applyAction] at ha
        split at ha
        · have hs1 : s1 = ⟨s.pending, s.running.erase c⟩ := (Option.some.inj ha).symm
          have hstart : startedCmds (Action.finish c :: as) = startedCmds as := rfl
          rw [hstart]
          rw [hs1] at ihw
          exact ihw
        · cases ha

/-- Two commands for different windows can be running at the same time: no
global lock serializes unrelated windows. -/
theorem two_windows_concurrent (c1 c2 : Cmd) (hne : c1.win ≠ c2.win) :
    ∃ bs : List Action, ∃ t : SchedState,
      runSched ⟨[c1, c2], []⟩ bs = some t ∧ c1 ∈ t.running ∧ c2 ∈ t.running := by
  have hb21 : (c2.win == c1.win) = false := beq_eq_false_iff_ne.mpr (Ne.symm hne)
  have hb12 : (c1.win != c2.win) = true := bne_iff_ne.mpr hne
  refine ⟨[Action.start c1, Action.start c2], ⟨[], [c1, c2]⟩, ?_, by simp, by simp⟩
  have ha1 : applyAction ⟨[c1, c2], []⟩ (Action.start c1) = some ⟨[c2], [c1]⟩ := by
    simp only [applyAction]
    rw [if_pos]
    · simp [List.erase_cons_head]
    · constructor
      · simp [List.filter_cons, hb21]
      · simp
  have ha2 : applyAction ⟨[c2], [c1]⟩ (Action.start c2) = some ⟨[], [c1, c2]⟩ := by
    simp only [applyAction]
    rw [if_pos]
    · simp [List.erase_cons_head]
    · constructor
      · simp [List.filter_cons]
      · simp [hb12]
  simp only [runSched, ha1, ha2]

/-- C8: operations on the same window id are serialized — in every valid
schedule at most one command per window is executing against the engine,
and the commands of each window start in arrival order (the started
subsequence of a window is a prefix of its arrival subsequence) — while
commands for two different window ids can execute fully concurrently: for
any two such commands there is a valid schedule with both running at once
(no global lock). -/
theorem scheduler_serialization_and_concurrency
    (arrivals : List Cmd) (as : List Action) (s2 : SchedState)
    (hrun : runSched ⟨arrivals, []⟩ as = some s2) :
    (∀ w, (s2.running.filter (fun x => x.win == w)).length ≤ 1) ∧
    (∀ w, winSeq w (startedCmds as) <+: winSeq w arrivals) ∧
    (∀ c1 c2 : Cmd, c1.win ≠ c2.win →
      ∃ bs : List Action, ∃ t : SchedState,
        runSched ⟨[c1, c2], []⟩ bs = some t ∧ c1 ∈ t.running ∧ c2 ∈ t.running) := by
  refine ⟨?_, ?_, fun c1 c2 hne => two_windows_concurrent c1 c2 hne⟩
  · have hinit : oneRunPerWin ⟨arrivals, []⟩ := by
      intro w
      simp [List.filter_nil]
    exact runSched_oneRun as _ s2 hrun hinit
  · intro w
    have := runSched_winSeq as _ s2 hrun w
    exact ⟨winSeq w s2.pending, this.symm⟩

/-- Closed instance for `scheduler_serialization_and_concurrency`: two
commands for window 1 and one for window 2, with the window-1 commands
serialized in arrival order and the window-2 command started in between. -/
theorem scheduler_serialization_and_concurrency_witness :
    runSched ⟨[⟨1, 1⟩, ⟨2, 2⟩, ⟨3, 1⟩], []⟩
        [Action.start ⟨1, 1⟩, Action.start ⟨2, 2⟩, Action.finish ⟨1, 1⟩,
         Action.start ⟨3, 1⟩] = some ⟨[], [⟨2, 2⟩, ⟨3, 1⟩]⟩ ∧
    ∀ w, ((⟨[], [⟨2, 2⟩, ⟨3, 1⟩]⟩ : SchedState).running.filter
      (fun x => x.win == w)).length ≤ 1 :=
  ⟨by decide,
   (scheduler_serialization_and_concurrency [⟨1, 1⟩, ⟨2, 2⟩, ⟨3, 1⟩]
      [Action.start ⟨1, 1⟩, Action.start ⟨2, 2⟩, Action.finish ⟨1, 1⟩,
       Action.start ⟨3, 1⟩] ⟨[], [⟨2, 2⟩, ⟨3, 1⟩]⟩ (by decide)).1⟩

end ElectronRpcPilot
